import Mathlib

/-!
Verification of the birthdays-with-jose repository.

Part 1: shallow embedding of the `BirthdaySongs` Solidity contract, in the
limited-edition version that carries supply caps, a per-order USDC platform
fee and a withdrawal watermark (the version embedded at the end of
`apps/jose-dashboard/README.md`).  State-mutating entry points are modelled
as functions `ContractState → Except ContractError ContractState` (plus a
returned token id for mints); an `Except.error` result models an EVM revert,
so the caller observes no state change on failure.

Part 2: shallow embedding of the Cloudflare worker handlers in
`apps/api-worker/src/index.ts` over a list-of-rows model of the D1 `orders`
table (`apps/api-worker/schema.sql`).

Part 3: shallow embedding of `packages/encryption/src/index.ts` (`encrypt` /
`decrypt`), with the Web Crypto AES-GCM path abstracted as an oracle and the
platform primitives `btoa` / `atob` given their standard semantics.
-/

namespace BirthdaySongs

/-- Addresses are modelled as strings; `""` plays the role of `address(0)`. -/
abbrev Addr := String

inductive SongType where
  | BIRTHDAY
  | NATAL
deriving DecidableEq

/-- `struct Order` of the contract. -/
structure Order where
  songType : SongType
  orderDataUri : String
  orderedBy : Addr
  orderedAt : Nat
  pricePaid : Nat
  fulfilled : Bool
  songUri : String
deriving DecidableEq

/-- The all-zero value a Solidity `mapping(uint256 => Order)` yields for an
unwritten key. -/
def defaultOrder : Order :=
  { songType := SongType.BIRTHDAY
    orderDataUri := ""
    orderedBy := ""
    orderedAt := 0
    pricePaid := 0
    fulfilled := false
    songUri := "" }

def BIRTHDAY_SUPPLY_LIMIT : Nat := 25
def NATAL_SUPPLY_LIMIT : Nat := 25
def TOTAL_SUPPLY_LIMIT : Nat := 50

/-- `PLATFORM_FEE = 500_000` ($0.50 USDC per order). -/
def PLATFORM_FEE : Nat := 500000

/-- Contract storage plus the slice of the USDC token state the contract
touches.  `usdcContract` is the contract's own USDC balance,
`usdcBalanceOf` the balances of external accounts and `usdcAllowance a` the
allowance account `a` has granted to this contract. -/
structure ContractState where
  nextTokenId : Nat
  birthdayPrice : Nat
  natalPrice : Nat
  birthdaysMinted : Nat
  natalsMinted : Nat
  platformWallet : Addr
  lastWithdrawnTokenId : Nat
  orders : Nat → Order
  owners : Nat → Option Addr
  contractOwner : Addr
  usdcContract : Nat
  usdcBalanceOf : Addr → Nat
  usdcAllowance : Addr → Nat

/-- Revert reasons of the contract (plus the ERC20/ERC721 reverts it can
propagate).  `SoldOut` stands for both per-type sold-out require strings. -/
inductive ContractError where
  | SoldOut
  | OrderDataUriRequired
  | TransferFailed
  | NotOwner
  | TokenDoesNotExist
  | AlreadyFulfilled
  | SongUriRequired
  | NoFunds
  | InvalidPlatformWallet
  | InvalidReceiver
  | IncorrectOwner
  | ArithmeticUnderflow
deriving DecidableEq

/-- State right after the constructor ran: counters at zero, no orders, no
tokens, empty contract balance.  External USDC balances and allowances are
arbitrary. -/
def initState (deployer platformW : Addr) (bal allow : Addr → Nat) : ContractState :=
  { nextTokenId := 0
    birthdayPrice := 25000000
    natalPrice := 250000000
    birthdaysMinted := 0
    natalsMinted := 0
    platformWallet := platformW
    lastWithdrawnTokenId := 0
    orders := fun _ => defaultOrder
    owners := fun _ => none
    contractOwner := deployer
    usdcContract := 0
    usdcBalanceOf := bal
    usdcAllowance := allow }

/-- `USDC.safeTransferFrom(msg.sender, address(this), amount)`: reverts
unless the caller holds `amount` and has approved at least `amount` to the
contract. -/
def safeTransferFromCaller (caller : Addr) (amount : Nat) (s : ContractState) :
    Except ContractError ContractState :=
  if s.usdcAllowance caller < amount then Except.error ContractError.TransferFailed
  else if s.usdcBalanceOf caller < amount then Except.error ContractError.TransferFailed
  else Except.ok
    { s with
      usdcAllowance := fun a => if a = caller then s.usdcAllowance caller - amount else s.usdcAllowance a
      usdcBalanceOf := fun a => if a = caller then s.usdcBalanceOf caller - amount else s.usdcBalanceOf a
      usdcContract := s.usdcContract + amount }

/-- `USDC.safeTransfer(recipient, amount)` out of the contract balance.  In
`withdraw` the transferred amounts sum to exactly the balance, so the
insufficient-balance revert of the token can never fire there; the model
keeps the transfer total. -/
def transferFromContract (recipient : Addr) (amount : Nat) (s : ContractState) : ContractState :=
  { s with
    usdcContract := s.usdcContract - amount
    usdcBalanceOf := fun a => if a = recipient then s.usdcBalanceOf recipient + amount else s.usdcBalanceOf a }

/-- `_mintOrder(songType, orderDataUri, price)`: requires a non-empty order
data URI, pulls the USDC price, allocates `_nextTokenId++`, `_safeMint`s it
to the caller and writes the new `Order`. -/
def mintOrder (songType : SongType) (orderDataUri : String) (price : Nat)
    (caller : Addr) (now : Nat) (s : ContractState) :
    Except ContractError (ContractState × Nat) :=
  if orderDataUri = "" then Except.error ContractError.OrderDataUriRequired
  else
    match safeTransferFromCaller caller price s with
    | Except.error e => Except.error e
    | Except.ok s1 =>
      let tokenId := s1.nextTokenId
      Except.ok
        ({ s1 with
           nextTokenId := tokenId + 1
           owners := fun t => if t = tokenId then some caller else s1.owners t
           orders := fun t =>
             if t = tokenId then
               { songType := songType
                 orderDataUri := orderDataUri
                 orderedBy := caller
                 orderedAt := now
                 pricePaid := price
                 fulfilled := false
                 songUri := "" }
             else s1.orders t },
         tokenId)

/-- `mintBirthdaySong`: guarded by the birthday supply cap, then increments
the counter and delegates to `_mintOrder` (a revert inside `_mintOrder`
undoes the increment, which the `Except` result models by discarding the
intermediate state). -/
def mintBirthdaySong (caller : Addr) (orderDataUri : String) (now : Nat)
    (s : ContractState) : Except ContractError (ContractState × Nat) :=
  if s.birthdaysMinted < BIRTHDAY_SUPPLY_LIMIT then
    mintOrder SongType.BIRTHDAY orderDataUri s.birthdayPrice caller now
      { s with birthdaysMinted := s.birthdaysMinted + 1 }
  else Except.error ContractError.SoldOut

/-- `mintNatalSong`: same shape with the natal counter, cap and price. -/
def mintNatalSong (caller : Addr) (orderDataUri : String) (now : Nat)
    (s : ContractState) : Except ContractError (ContractState × Nat) :=
  if s.natalsMinted < NATAL_SUPPLY_LIMIT then
    mintOrder SongType.NATAL orderDataUri s.natalPrice caller now
      { s with natalsMinted := s.natalsMinted + 1 }
  else Except.error ContractError.SoldOut

/-- `fulfillOrder(tokenId, songUri)` (`onlyOwner`): token must exist, the
order must not already be fulfilled, the song URI must be non-empty; then
sets `fulfilled = true` and stores the URI. -/
def fulfillOrder (caller : Addr) (tokenId : Nat) (songUri : String)
    (s : ContractState) : Except ContractError ContractState :=
  if caller ≠ s.contractOwner then Except.error ContractError.NotOwner
  else if s.owners tokenId = none then Except.error ContractError.TokenDoesNotExist
  else if (s.orders tokenId).fulfilled then Except.error ContractError.AlreadyFulfilled
  else if songUri = "" then Except.error ContractError.SongUriRequired
  else Except.ok
    { s with
      orders := fun t =>
        if t = tokenId then { s.orders tokenId with fulfilled := true, songUri := songUri }
        else s.orders t }

/-- `withdraw()` (`onlyOwner`): requires a positive USDC balance, charges
`PLATFORM_FEE` per token minted since `lastWithdrawnTokenId` (capped at the
balance), advances the watermark, sends the fee to the platform wallet and
the remainder to the owner.  The `nextTokenId < lastWithdrawnTokenId` case
mirrors the checked-subtraction panic of Solidity 0.8 (unreachable from any
reachable state). -/
def withdraw (caller : Addr) (s : ContractState) : Except ContractError ContractState :=
  if caller ≠ s.contractOwner then Except.error ContractError.NotOwner
  else if s.usdcContract = 0 then Except.error ContractError.NoFunds
  else if s.nextTokenId < s.lastWithdrawnTokenId then Except.error ContractError.ArithmeticUnderflow
  else
    let balance := s.usdcContract
    let newOrders := s.nextTokenId - s.lastWithdrawnTokenId
    let fee0 := newOrders * PLATFORM_FEE
    let totalPlatformFee := if fee0 > balance then balance else fee0
    let creatorAmount := balance - totalPlatformFee
    let s1 := { s with lastWithdrawnTokenId := s.nextTokenId }
    let s2 := if totalPlatformFee > 0 then transferFromContract s.platformWallet totalPlatformFee s1 else s1
    let s3 := if creatorAmount > 0 then transferFromContract s.contractOwner creatorAmount s2 else s2
    Except.ok s3

/-- `setPrices` (`onlyOwner`). -/
def setPrices (caller : Addr) (bp np : Nat) (s : ContractState) :
    Except ContractError ContractState :=
  if caller ≠ s.contractOwner then Except.error ContractError.NotOwner
  else Except.ok { s with birthdayPrice := bp, natalPrice := np }

/-- `setPlatformWallet` (`onlyOwner`, non-zero address). -/
def setPlatformWallet (caller : Addr) (w : Addr) (s : ContractState) :
    Except ContractError ContractState :=
  if caller ≠ s.contractOwner then Except.error ContractError.NotOwner
  else if w = "" then Except.error ContractError.InvalidPlatformWallet
  else Except.ok { s with platformWallet := w }

/-- ERC721 transfer of a token by its current owner (approval mechanics
elided; the op is initiated by the `fromA` account).  Requires a non-zero
receiver and that `fromA` currently owns the token. -/
def transferToken (fromA toA : Addr) (tokenId : Nat) (s : ContractState) :
    Except ContractError ContractState :=
  if toA = "" then Except.error ContractError.InvalidReceiver
  else if s.owners tokenId ≠ some fromA then Except.error ContractError.IncorrectOwner
  else Except.ok
    { s with owners := fun t => if t = tokenId then some toA else s.owners t }

/-- One interaction with the contract (or with the USDC token on the side:
`approve` grants an allowance to the contract, `fund` is a plain USDC
transfer into the contract). -/
inductive Op where
  | mintBirthday (caller : Addr) (uri : String) (now : Nat)
  | mintNatal (caller : Addr) (uri : String) (now : Nat)
  | fulfill (caller : Addr) (tokenId : Nat) (songUri : String)
  | withdrawOp (caller : Addr)
  | setPricesOp (caller : Addr) (bp np : Nat)
  | setPlatformWalletOp (caller : Addr) (w : Addr)
  | transferTokenOp (fromA toA : Addr) (tokenId : Nat)
  | approve (a : Addr) (amount : Nat)
  | fund (a : Addr) (amount : Nat)

/-- Execute one operation; mints additionally return the allocated token id. -/
def execOp (op : Op) (s : ContractState) : Except ContractError (ContractState × Option Nat) :=
  match op with
  | Op.mintBirthday caller uri now =>
    (mintBirthdaySong caller uri now s).map (fun r => (r.1, some r.2))
  | Op.mintNatal caller uri now =>
    (mintNatalSong caller uri now s).map (fun r => (r.1, some r.2))
  | Op.fulfill caller tokenId songUri =>
    (fulfillOrder caller tokenId songUri s).map (fun s2 => (s2, none))
  | Op.withdrawOp caller =>
    (withdraw caller s).map (fun s2 => (s2, none))
  | Op.setPricesOp caller bp np =>
    (setPrices caller bp np s).map (fun s2 => (s2, none))
  | Op.setPlatformWalletOp caller w =>
    (setPlatformWallet caller w s).map (fun s2 => (s2, none))
  | Op.transferTokenOp fromA toA tokenId =>
    (transferToken fromA toA tokenId s).map (fun s2 => (s2, none))
  | Op.approve a amount =>
    Except.ok ({ s with usdcAllowance := fun x => if x = a then amount else s.usdcAllowance x }, none)
  | Op.fund a amount =>
    if s.usdcBalanceOf a < amount then Except.error ContractError.TransferFailed
    else Except.ok
      ({ s with
         usdcBalanceOf := fun x => if x = a then s.usdcBalanceOf a - amount else s.usdcBalanceOf x
         usdcContract := s.usdcContract + amount }, none)

/-- EVM transaction semantics: a revert leaves the state unchanged. -/
def stepT (s : ContractState) (op : Op) : ContractState × Option Nat :=
  match execOp op s with
  | Except.ok r => r
  | Except.error _ => (s, none)

def step (s : ContractState) (op : Op) : ContractState :=
  (stepT s op).1

/-- Run a sequence of transactions. -/
def run (s : ContractState) (ops : List Op) : ContractState :=
  ops.foldl step s

/-- Token ids handed out by the successful mints of a transaction sequence,
in execution order. -/
def mintedIds (s : ContractState) : List Op → List Nat
  | [] => []
  | op :: ops => (stepT s op).2.toList ++ mintedIds (stepT s op).1 ops

/-- Concrete demonstration data used by the witness theorems below: USDC
balances and allowances granting the customer `"alice"` ample funds. -/
def demoBal : Addr → Nat := fun a => if a = "alice" then 1000000000 else 0

def demoAllow : Addr → Nat := fun a => if a = "alice" then 1000000000 else 0

/-- A freshly deployed contract: owner `"jose"`, platform wallet
`"platform"`. -/
def demoInit : ContractState := initState "jose" "platform" demoBal demoAllow

/-- 25 birthday mints: drives the birthday counter to its cap. -/
def demoCapOps : List Op := List.replicate 25 (Op.mintBirthday "alice" "u" 0)

/-- One mint followed by its fulfillment by the owner. -/
def demoFulfilledOps : List Op :=
  [Op.mintBirthday "alice" "u" 0, Op.fulfill "jose" 0 "song"]

end BirthdaySongs

namespace ApiWorker

/-- A row of the D1 `orders` table (`apps/api-worker/schema.sql`): id (uuid
primary key), token_id (indexed, NOT unique), arweave_id, song_arweave_id,
status (default `"pending"`), created_at, fulfilled_at.  The production
insert additionally binds customer-metadata columns (recipient name, birth
data, ...) that no claim touches; they are not modelled. -/
structure DbRow where
  id : String
  token_id : Nat
  arweave_id : Option String
  song_arweave_id : Option String
  status : String
  created_at : String
  fulfilled_at : Option String
deriving DecidableEq

/-- The `orders` table: its rows in insertion order. -/
abbrev Db := List DbRow

/-- POST `/api/orders/metadata` (the spec's `recordCreated`): rejects a
JS-falsy `tokenId` (the number 0) or `arweaveId` (the empty string) with a
400, otherwise INSERTs one row keyed by a fresh uuid, with `status`
defaulted to `"pending"` via `status || 'pending'` and the current
timestamp.  `schema.sql` puts no unique constraint on `token_id`, so the
INSERT always appends a row.  Returns the new table and whether the call
was accepted. -/
def recordCreated (db : Db) (tokenId : Nat) (arweaveId : String)
    (status : Option String) (freshId now : String) : Db × Bool :=
  if tokenId = 0 ∨ arweaveId = "" then (db, false)
  else
    (db ++ [{ id := freshId
              token_id := tokenId
              arweave_id := some arweaveId
              song_arweave_id := none
              status := match status with
                | none => "pending"
                | some st => if st = "" then "pending" else st
              created_at := now
              fulfilled_at := none }], true)

/-- POST `/api/orders/fulfill` (the spec's `recordFulfilled`): rejects a
falsy `tokenId` or `songArweaveId` with a 400, otherwise runs
`UPDATE orders SET song_arweave_id = ?, status = 'fulfilled', fulfilled_at = ?
WHERE token_id = ?` — matching zero or more rows — and reports success
either way. -/
def recordFulfilled (db : Db) (tokenId : Nat) (songArweaveId : String)
    (now : String) : Db × Bool :=
  if tokenId = 0 ∨ songArweaveId = "" then (db, false)
  else
    (db.map (fun r =>
      if r.token_id = tokenId then
        { r with
          song_arweave_id := some songArweaveId
          status := "fulfilled"
          fulfilled_at := some now }
      else r), true)

/-- Outcome of GET `/api/songs/:tokenId/:userAddress`. -/
inductive SongFetchResult where
  | orderNotFound
  | songNotUploaded
  | songNotReady
  | release (arweaveId : String)
deriving DecidableEq

/-- GET `/api/songs/:tokenId/:userAddress`: consults only the D1 mirror
(`SELECT song_arweave_id, status FROM orders WHERE token_id = ?`, taking
`results[0]`), requires a truthy `song_arweave_id` and
`status = 'fulfilled'`, then releases the pointer (fetching
`arweave.net/<id>` and returning its payload).  The `userAddress` path
parameter is only logged: the handler carries a TODO in place of the
on-chain ownership check and trusts the frontend. -/
def getSongHandler (db : Db) (tokenId : Nat) (userAddress : String) : SongFetchResult :=
  match db.filter (fun r => r.token_id = tokenId) with
  | [] => SongFetchResult.orderNotFound
  | r :: _ =>
    match r.song_arweave_id with
    | none => SongFetchResult.songNotUploaded
    | some sid =>
      if sid = "" then SongFetchResult.songNotUploaded
      else if r.status ≠ "fulfilled" then SongFetchResult.songNotReady
      else SongFetchResult.release sid

end ApiWorker

namespace Encryption

/-- The base64 alphabet. -/
def base64Table : List Char :=
  "ABCDEFGHIJKLMNOPQRSTUVWXYZabcdefghijklmnopqrstuvwxyz0123456789+/".toList

/-- Standard padded base64 of a byte list. -/
def b64Encode : List Nat → List Char
  | [] => []
  | [b1] =>
    [base64Table.getD (b1 / 4) '?', base64Table.getD (b1 % 4 * 16) '?', '=', '=']
  | [b1, b2] =>
    [base64Table.getD (b1 / 4) '?', base64Table.getD (b1 % 4 * 16 + b2 / 16) '?',
     base64Table.getD (b2 % 16 * 4) '?', '=']
  | b1 :: b2 :: b3 :: rest =>
    base64Table.getD (b1 / 4) '?' :: base64Table.getD (b1 % 4 * 16 + b2 / 16) '?' ::
    base64Table.getD (b2 % 16 * 4 + b3 / 64) '?' :: base64Table.getD (b3 % 64) '?' ::
    b64Encode rest

/-- `btoa(data)`: per the platform specification it throws
(`InvalidCharacterError`, modelled as `none`) whenever some code unit of the
argument exceeds 0xFF, and otherwise base64-encodes the Latin-1 bytes. -/
def btoa (data : String) : Option String :=
  if data.toList.all (fun c => c.toNat ≤ 255) then
    some (String.mk (b64Encode (data.toList.map Char.toNat)))
  else none

/-- Position of a character in the base64 alphabet. -/
def b64Index (c : Char) : Option Nat :=
  base64Table.indexOf? c

/-- Sextet groups back to bytes; a single leftover sextet is invalid. -/
def b64DecodeChunks : List Nat → Option (List Nat)
  | [] => some []
  | [_] => none
  | [a, b] => some [a * 4 + b / 16]
  | [a, b, c] => some [a * 4 + b / 16, b % 16 * 16 + c / 4]
  | a :: b :: c :: d :: rest =>
    (b64DecodeChunks rest).map (fun bytes =>
      (a * 4 + b / 16) :: (b % 16 * 16 + c / 4) :: (c % 4 * 64 + d) :: bytes)

/-- `atob(input)`: strips trailing padding, maps the remaining characters
through the alphabet (throwing, i.e. `none`, on a foreign character or a
leftover length of 1) and reassembles the bytes as a Latin-1 string. -/
def atob (input : String) : Option String :=
  let content := (input.toList.reverse.dropWhile (fun c => c = '=')).reverse
  match content.mapM b64Index with
  | none => none
  | some sextets =>
    match b64DecodeChunks sextets with
    | none => none
    | some bytes => some (String.mk (bytes.map Char.ofNat))

/-- A byte string handed to `btoa` (all code units below 256 by
construction, as produced by `String.fromCharCode` on a `Uint8Array`). -/
def fromBytes (l : List (Fin 256)) : String :=
  String.mk (l.map (fun b => Char.ofNat b.val))

/-- External behaviour of the Web Crypto path: `available = false` models
the guard `typeof window === 'undefined' && typeof crypto === 'undefined'`;
`aesEncrypt password data` is the combined salt‖iv‖ciphertext byte string
produced inside the try block of `encrypt` (PBKDF2 key derivation, random
salt and iv, AES-GCM), or `none` when one of the `crypto.subtle` calls
rejects; `aesDecrypt password cipher` likewise abstracts the try block of
`decrypt`. -/
structure CryptoOracle where
  available : Bool
  aesEncrypt : String → String → Option (List (Fin 256))
  aesDecrypt : String → String → Option String

/-- `encrypt(data, password)` of `packages/encryption/src/index.ts`: the
environment guard falls back to `btoa(data)`; the try block base64-encodes
the combined bytes via `btoa(String.fromCharCode(...combined))`; any error
raised in the try block is caught and falls back to `btoa(data)`.  A `none`
result models an uncaught exception — which can only come from `btoa`
itself. -/
def encrypt (env : CryptoOracle) (data password : String) : Option String :=
  if env.available = false then btoa data
  else
    match env.aesEncrypt password data with
    | some combined => btoa (fromBytes combined)
    | none => btoa data

/-- `decrypt(encryptedData, password)`: the environment guard returns
`atob(input)` with the input itself as last resort; the try block begins by
`atob`-ing the input (an invalid base64 input therefore throws into the
catch, whose own `atob` throws again, returning the input unchanged);
a failing AES-GCM decryption likewise lands in the catch, which returns
`atob(input)`.  The function is total: it never throws. -/
def decrypt (env : CryptoOracle) (encryptedData password : String) : String :=
  if env.available = false then
    match atob encryptedData with
    | some s => s
    | none => encryptedData
  else
    match atob encryptedData with
    | none => encryptedData
    | some _ =>
      match env.aesDecrypt password encryptedData with
      | some plain => plain
      | none =>
        match atob encryptedData with
        | some s => s
        | none => encryptedData

end Encryption

namespace BirthdaySongs

theorem safeTransferFromCaller_ok_eq {caller : Addr} {amount : Nat} {s s1 : ContractState}
    (h : safeTransferFromCaller caller amount s = Except.ok s1) :
    s1 = { s with
      usdcAllowance := fun a => if a = caller then s.usdcAllowance caller - amount else s.usdcAllowance a
      usdcBalanceOf := fun a => if a = caller then s.usdcBalanceOf caller - amount else s.usdcBalanceOf a
      usdcContract := s.usdcContract + amount } := by
  unfold safeTransferFromCaller at h
  split at h
  · simp at h
  · split at h
    · simp at h
    · simp only [Except.ok.injEq] at h
      exact h.symm

theorem mintOrder_ok_char {ty : SongType} {uri : String} {price : Nat} {caller : Addr}
    {now : Nat} {s s' : ContractState} {tid : Nat}
    (h : mintOrder ty uri price caller now s = Except.ok (s', tid)) :
    uri ≠ "" ∧ tid = s.nextTokenId ∧
    s'.nextTokenId = s.nextTokenId + 1 ∧
    s'.birthdaysMinted = s.birthdaysMinted ∧
    s'.natalsMinted = s.natalsMinted ∧
    s'.lastWithdrawnTokenId = s.lastWithdrawnTokenId ∧
    s'.contractOwner = s.contractOwner ∧
    (∀ t, t ≠ s.nextTokenId → s'.orders t = s.orders t) ∧
    s'.orders s.nextTokenId =
      { songType := ty, orderDataUri := uri, orderedBy := caller, orderedAt := now,
        pricePaid := price, fulfilled := false, songUri := "" } ∧
    (∀ t, t ≠ s.nextTokenId → s'.owners t = s.owners t) ∧
    s'.owners s.nextTokenId = some caller := by
  unfold mintOrder at h
  split at h
  · simp at h
  · rename_i huri
    cases hst : safeTransferFromCaller caller price s with
    | error e => rw [hst] at h; simp at h
    | ok s1 =>
      rw [hst] at h
      have hchar := safeTransferFromCaller_ok_eq hst
      subst hchar
      simp only [Except.ok.injEq, Prod.mk.injEq] at h
      obtain ⟨hs', htid⟩ := h
      subst hs'
      subst htid
      refine ⟨huri, rfl, rfl, rfl, rfl, rfl, rfl, ?_, ?_, ?_, ?_⟩
      · intro t ht; simp [ht]
      · simp
      · intro t ht; simp [ht]
      · simp

theorem mintBirthdaySong_ok_char {caller : Addr} {uri : String} {now : Nat}
    {s s' : ContractState} {tid : Nat}
    (h : mintBirthdaySong caller uri now s = Except.ok (s', tid)) :
    uri ≠ "" ∧ tid = s.nextTokenId ∧
    s'.nextTokenId = s.nextTokenId + 1 ∧
    s.birthdaysMinted < BIRTHDAY_SUPPLY_LIMIT ∧
    s'.birthdaysMinted = s.birthdaysMinted + 1 ∧
    s'.natalsMinted = s.natalsMinted ∧
    s'.lastWithdrawnTokenId = s.lastWithdrawnTokenId ∧
    s'.contractOwner = s.contractOwner ∧
    (∀ t, t ≠ s.nextTokenId → s'.orders t = s.orders t) ∧
    (s'.orders s.nextTokenId).fulfilled = false ∧
    (s'.orders s.nextTokenId).songUri = "" ∧
    (∀ t, t ≠ s.nextTokenId → s'.owners t = s.owners t) := by
  unfold mintBirthdaySong at h
  split at h
  · rename_i hcap
    have hc := mintOrder_ok_char h
    simp only at hc
    obtain ⟨h1, h2, h3, h4, h5, h6, h7, h8, h9, h10, h11⟩ := hc
    exact ⟨h1, h2, h3, hcap, by rw [h4], by rw [h5], h6, h7, h8,
      by rw [h9], by rw [h9], h10⟩
  · simp at h

theorem mintNatalSong_ok_char {caller : Addr} {uri : String} {now : Nat}
    {s s' : ContractState} {tid : Nat}
    (h : mintNatalSong caller uri now s = Except.ok (s', tid)) :
    uri ≠ "" ∧ tid = s.nextTokenId ∧
    s'.nextTokenId = s.nextTokenId + 1 ∧
    s.natalsMinted < NATAL_SUPPLY_LIMIT ∧
    s'.natalsMinted = s.natalsMinted + 1 ∧
    s'.birthdaysMinted = s.birthdaysMinted ∧
    s'.lastWithdrawnTokenId = s.lastWithdrawnTokenId ∧
    s'.contractOwner = s.contractOwner ∧
    (∀ t, t ≠ s.nextTokenId → s'.orders t = s.orders t) ∧
    (s'.orders s.nextTokenId).fulfilled = false ∧
    (s'.orders s.nextTokenId).songUri = "" ∧
    (∀ t, t ≠ s.nextTokenId → s'.owners t = s.owners t) := by
  unfold mintNatalSong at h
  split at h
  · rename_i hcap
    have hc := mintOrder_ok_char h
    simp only at hc
    obtain ⟨h1, h2, h3, h4, h5, h6, h7, h8, h9, h10, h11⟩ := hc
    exact ⟨h1, h2, h3, hcap, by rw [h5], by rw [h4], h6, h7, h8,
      by rw [h9], by rw [h9], h10⟩
  · simp at h

theorem fulfillOrder_ok_char {caller : Addr} {tokenId : Nat} {songUri : String}
    {s s' : ContractState}
    (h : fulfillOrder caller tokenId songUri s = Except.ok s') :
    caller = s.contractOwner ∧ s.owners tokenId ≠ none ∧
    (s.orders tokenId).fulfilled = false ∧ songUri ≠ "" ∧
    s'.nextTokenId = s.nextTokenId ∧
    s'.birthdaysMinted = s.birthdaysMinted ∧
    s'.natalsMinted = s.natalsMinted ∧
    s'.lastWithdrawnTokenId = s.lastWithdrawnTokenId ∧
    s'.contractOwner = s.contractOwner ∧
    s'.owners = s.owners ∧
    (∀ t, t ≠ tokenId → s'.orders t = s.orders t) ∧
    s'.orders tokenId = { s.orders tokenId with fulfilled := true, songUri := songUri } := by
  unfold fulfillOrder at h
  split at h
  · simp at h
  · split at h
    · simp at h
    · split at h
      · simp at h
      · split at h
        · simp at h
        · rename_i hown hex hful huri
          simp only [Except.ok.injEq] at h
          subst h
          refine ⟨by simpa using hown, hex, by simpa using hful, huri,
            rfl, rfl, rfl, rfl, rfl, rfl, ?_, ?_⟩
          · intro t ht; simp [ht]
          · simp

theorem transferFromContract_nextTokenId (r : Addr) (amt : Nat) (s : ContractState) :
    (transferFromContract r amt s).nextTokenId = s.nextTokenId := rfl

theorem transferFromContract_birthdaysMinted (r : Addr) (amt : Nat) (s : ContractState) :
    (transferFromContract r amt s).birthdaysMinted = s.birthdaysMinted := rfl

theorem transferFromContract_natalsMinted (r : Addr) (amt : Nat) (s : ContractState) :
    (transferFromContract r amt s).natalsMinted = s.natalsMinted := rfl

theorem transferFromContract_lastWithdrawnTokenId (r : Addr) (amt : Nat) (s : ContractState) :
    (transferFromContract r amt s).lastWithdrawnTokenId = s.lastWithdrawnTokenId := rfl

theorem transferFromContract_contractOwner (r : Addr) (amt : Nat) (s : ContractState) :
    (transferFromContract r amt s).contractOwner = s.contractOwner := rfl

theorem transferFromContract_orders (r : Addr) (amt : Nat) (s : ContractState) :
    (transferFromContract r amt s).orders = s.orders := rfl

theorem transferFromContract_owners (r : Addr) (amt : Nat) (s : ContractState) :
    (transferFromContract r amt s).owners = s.owners := rfl

theorem withdraw_ok_frame {caller : Addr} {s s' : ContractState}
    (h : withdraw caller s = Except.ok s') :
    s'.nextTokenId = s.nextTokenId ∧
    s'.birthdaysMinted = s.birthdaysMinted ∧
    s'.natalsMinted = s.natalsMinted ∧
    s'.lastWithdrawnTokenId = s.nextTokenId ∧
    s'.contractOwner = s.contractOwner ∧
    s'.orders = s.orders ∧
    s'.owners = s.owners := by
  unfold withdraw at h
  split at h
  · simp at h
  · split at h
    · simp at h
    · split at h
      · simp at h
      · simp only [Except.ok.injEq] at h
        subst h
        refine ⟨?_, ?_, ?_, ?_, ?_, ?_, ?_⟩ <;>
          · split <;> split <;> (try split) <;>
              simp [transferFromContract_nextTokenId, transferFromContract_birthdaysMinted,
                transferFromContract_natalsMinted, transferFromContract_lastWithdrawnTokenId,
                transferFromContract_contractOwner, transferFromContract_orders,
                transferFromContract_owners]

theorem setPrices_ok_frame {caller : Addr} {bp np : Nat} {s s' : ContractState}
    (h : setPrices caller bp np s = Except.ok s') :
    s'.nextTokenId = s.nextTokenId ∧
    s'.birthdaysMinted = s.birthdaysMinted ∧
    s'.natalsMinted = s.natalsMinted ∧
    s'.lastWithdrawnTokenId = s.lastWithdrawnTokenId ∧
    s'.orders = s.orders ∧
    s'.owners = s.owners := by
  unfold setPrices at h
  split at h
  · simp at h
  · simp only [Except.ok.injEq] at h
    subst h
    exact ⟨rfl, rfl, rfl, rfl, rfl, rfl⟩

theorem setPlatformWallet_ok_frame {caller w : Addr} {s s' : ContractState}
    (h : setPlatformWallet caller w s = Except.ok s') :
    s'.nextTokenId = s.nextTokenId ∧
    s'.birthdaysMinted = s.birthdaysMinted ∧
    s'.natalsMinted = s.natalsMinted ∧
    s'.lastWithdrawnTokenId = s.lastWithdrawnTokenId ∧
    s'.orders = s.orders ∧
    s'.owners = s.owners := by
  unfold setPlatformWallet at h
  split at h
  · simp at h
  · split at h
    · simp at h
    · simp only [Except.ok.injEq] at h
      subst h
      exact ⟨rfl, rfl, rfl, rfl, rfl, rfl⟩

theorem transferToken_ok_frame {fromA toA : Addr} {tokenId : Nat} {s s' : ContractState}
    (h : transferToken fromA toA tokenId s = Except.ok s') :
    s'.nextTokenId = s.nextTokenId ∧
    s'.birthdaysMinted = s.birthdaysMinted ∧
    s'.natalsMinted = s.natalsMinted ∧
    s'.lastWithdrawnTokenId = s.lastWithdrawnTokenId ∧
    s'.orders = s.orders ∧
    s.owners tokenId = some fromA ∧
    (∀ t, t ≠ tokenId → s'.owners t = s.owners t) ∧
    s'.owners tokenId = some toA := by
  unfold transferToken at h
  split at h
  · simp at h
  · split at h
    · simp at h
    · rename_i hrecv hown
      simp only [Except.ok.injEq] at h
      subst h
      refine ⟨rfl, rfl, rfl, rfl, rfl, by simpa using hown, ?_, ?_⟩
      · intro t ht; simp [ht]
      · simp

end BirthdaySongs

namespace BirthdaySongs

/-- Inductive invariant of reachable contract states: supply counters below
their caps, watermark below the mint count, all storage above `nextTokenId`
still at its zero value, and the fulfilled flag synchronised with the song
URI. -/
def Inv (s : ContractState) : Prop :=
  s.birthdaysMinted ≤ BIRTHDAY_SUPPLY_LIMIT ∧
  s.natalsMinted ≤ NATAL_SUPPLY_LIMIT ∧
  s.lastWithdrawnTokenId ≤ s.nextTokenId ∧
  (∀ t, s.nextTokenId ≤ t → s.orders t = defaultOrder) ∧
  (∀ t, s.nextTokenId ≤ t → s.owners t = none) ∧
  (∀ t, (s.orders t).fulfilled = true ↔ (s.orders t).songUri ≠ "")

theorem Inv_init (deployer platformW : Addr) (bal allow : Addr → Nat) :
    Inv (initState deployer platformW bal allow) := by
  refine ⟨by simp [initState, BIRTHDAY_SUPPLY_LIMIT], by simp [initState, NATAL_SUPPLY_LIMIT],
    by simp [initState], ?_, ?_, ?_⟩
  · intro t _; rfl
  · intro t _; rfl
  · intro t; simp [initState, defaultOrder]

theorem Inv_step {s : ContractState} (op : Op) (hs : Inv s) : Inv (step s op) := by
  obtain ⟨hb, hn, hw, hord, hown, hiff⟩ := hs
  unfold step stepT
  cases hex : execOp op s with
  | error e => exact ⟨hb, hn, hw, hord, hown, hiff⟩
  | ok r =>
    obtain ⟨s', ret⟩ := r
    simp only
    cases op with
    | mintBirthday caller uri now =>
      simp only [execOp] at hex
      cases hm : mintBirthdaySong caller uri now s with
      | error e => rw [hm] at hex; simp [Except.map] at hex
      | ok p =>
        rw [hm] at hex
        simp only [Except.map, Except.ok.injEq, Prod.mk.injEq] at hex
        obtain ⟨hs', -⟩ := hex
        obtain ⟨_, _, hnext, hcap, hbm, hnm, hlw, _, hother, hful, hsong, _⟩ :=
          mintBirthdaySong_ok_char (show mintBirthdaySong caller uri now s = Except.ok (p.1, p.2) by rw [hm])
        subst hs'
        refine ⟨by omega, by rw [hnm]; exact hn, by omega, ?_, ?_, ?_⟩
        · intro t ht
          rw [hother t (by omega)]
          exact hord t (by omega)
        · intro t ht
          obtain ⟨_, _, _, _, _, _, _, _, _, _, _, hownoth⟩ :=
            mintBirthdaySong_ok_char (show mintBirthdaySong caller uri now s = Except.ok (p.1, p.2) by rw [hm])
          rw [hownoth t (by omega)]
          exact hown t (by omega)
        · intro t
          by_cases ht : t = s.nextTokenId
          · subst ht; rw [hful, hsong]; simp
          · rw [hother t ht]; exact hiff t
    | mintNatal caller uri now =>
      simp only [execOp] at hex
      cases hm : mintNatalSong caller uri now s with
      | error e => rw [hm] at hex; simp [Except.map] at hex
      | ok p =>
        rw [hm] at hex
        simp only [Except.map, Except.ok.injEq, Prod.mk.injEq] at hex
        obtain ⟨hs', -⟩ := hex
        obtain ⟨_, _, hnext, hcap, hnm, hbm, hlw, _, hother, hful, hsong, hownoth⟩ :=
          mintNatalSong_ok_char (show mintNatalSong caller uri now s = Except.ok (p.1, p.2) by rw [hm])
        subst hs'
        refine ⟨by rw [hbm]; exact hb, by omega, by omega, ?_, ?_, ?_⟩
        · intro t ht
          rw [hother t (by omega)]
          exact hord t (by omega)
        · intro t ht
          rw [hownoth t (by omega)]
          exact hown t (by omega)
        · intro t
          by_cases ht : t = s.nextTokenId
          · subst ht; rw [hful, hsong]; simp
          · rw [hother t ht]; exact hiff t
    | fulfill caller tokenId songUri =>
      simp only [execOp] at hex
      cases hm : fulfillOrder caller tokenId songUri s with
      | error e => rw [hm] at hex; simp [Except.map] at hex
      | ok s2 =>
        rw [hm] at hex
        simp only [Except.map, Except.ok.injEq, Prod.mk.injEq] at hex
        obtain ⟨hs', -⟩ := hex
        obtain ⟨_, hexist, _, huri, hnext, hbm, hnm, hlw, _, howns, hother, hat⟩ :=
          fulfillOrder_ok_char hm
        subst hs'
        have htok : tokenId < s.nextTokenId := by
          by_contra hge
          exact hexist (hown tokenId (by omega))
        refine ⟨by rw [hbm]; exact hb, by rw [hnm]; exact hn, by omega, ?_, ?_, ?_⟩
        · intro t ht
          rw [hother t (by omega), hnext] at *
          exact hord t (by omega)
        · intro t ht
          rw [howns]
          exact hown t (by omega)
        · intro t
          by_cases ht : t = tokenId
          · subst ht; rw [hat]; simpa using huri
          · rw [hother t ht]; exact hiff t
    | withdrawOp caller =>
      simp only [execOp] at hex
      cases hm : withdraw caller s with
      | error e => rw [hm] at hex; simp [Except.map] at hex
      | ok s2 =>
        rw [hm] at hex
        simp only [Except.map, Except.ok.injEq, Prod.mk.injEq] at hex
        obtain ⟨hs', -⟩ := hex
        obtain ⟨hnext, hbm, hnm, hlw, _, hords, howns⟩ := withdraw_ok_frame hm
        subst hs'
        exact ⟨by rw [hbm]; exact hb, by rw [hnm]; exact hn, by omega,
          by rw [hords, hnext]; exact hord, by rw [howns, hnext]; exact hown,
          by rw [hords]; exact hiff⟩
    | setPricesOp caller bp np =>
      simp only [execOp] at hex
      cases hm : setPrices caller bp np s with
      | error e => rw [hm] at hex; simp [Except.map] at hex
      | ok s2 =>
        rw [hm] at hex
        simp only [Except.map, Except.ok.injEq, Prod.mk.injEq] at hex
        obtain ⟨hs', -⟩ := hex
        obtain ⟨hnext, hbm, hnm, hlw, hords, howns⟩ := setPrices_ok_frame hm
        subst hs'
        exact ⟨by rw [hbm]; exact hb, by rw [hnm]; exact hn, by omega,
          by rw [hords, hnext]; exact hord, by rw [howns, hnext]; exact hown,
          by rw [hords]; exact hiff⟩
    | setPlatformWalletOp caller w =>
      simp only [execOp] at hex
      cases hm : setPlatformWallet caller w s with
      | error e => rw [hm] at hex; simp [Except.map] at hex
      | ok s2 =>
        rw [hm] at hex
        simp only [Except.map, Except.ok.injEq, Prod.mk.injEq] at hex
        obtain ⟨hs', -⟩ := hex
        obtain ⟨hnext, hbm, hnm, hlw, hords, howns⟩ := setPlatformWallet_ok_frame hm
        subst hs'
        exact ⟨by rw [hbm]; exact hb, by rw [hnm]; exact hn, by omega,
          by rw [hords, hnext]; exact hord, by rw [howns, hnext]; exact hown,
          by rw [hords]; exact hiff⟩
    | transferTokenOp fromA toA tokenId =>
      simp only [execOp] at hex
      cases hm : transferToken fromA toA tokenId s with
      | error e => rw [hm] at hex; simp [Except.map] at hex
      | ok s2 =>
        rw [hm] at hex
        simp only [Except.map, Except.ok.injEq, Prod.mk.injEq] at hex
        obtain ⟨hs', -⟩ := hex
        obtain ⟨hnext, hbm, hnm, hlw, hords, hfrom, hothers, _⟩ := transferToken_ok_frame hm
        subst hs'
        have htok : tokenId < s.nextTokenId := by
          by_contra hge
          rw [hown tokenId (by omega)] at hfrom
          exact Option.noConfusion hfrom
        refine ⟨by rw [hbm]; exact hb, by rw [hnm]; exact hn, by omega,
          by rw [hords, hnext]; exact hord, ?_, by rw [hords]; exact hiff⟩
        · intro t ht
          rw [hnext] at ht
          rw [hothers t (by omega)]
          exact hown t ht
    | approve a amount =>
      simp only [execOp, Except.ok.injEq, Prod.mk.injEq] at hex
      obtain ⟨hs', -⟩ := hex
      subst hs'
      exact ⟨hb, hn, hw, hord, hown, hiff⟩
    | fund a amount =>
      simp only [execOp] at hex
      split at hex
      · simp at hex
      · simp only [Except.ok.injEq, Prod.mk.injEq] at hex
        obtain ⟨hs', -⟩ := hex
        subst hs'
        exact ⟨hb, hn, hw, hord, hown, hiff⟩

theorem Inv_run {s : ContractState} (hs : Inv s) (ops : List Op) : Inv (run s ops) := by
  induction ops generalizing s with
  | nil => exact hs
  | cons op ops ih =>
    have h1 : run s (op :: ops) = run (step s op) ops := rfl
    rw [h1]
    exact ih (Inv_step op hs)

end BirthdaySongs

namespace BirthdaySongs

/-- An operation that returns a token id is a successful mint: it hands out
the current `nextTokenId` and bumps the allocator by one. -/
theorem execOp_ok_some {op : Op} {s s' : ContractState} {tid : Nat}
    (h : execOp op s = Except.ok (s', some tid)) :
    tid = s.nextTokenId ∧ s'.nextTokenId = s.nextTokenId + 1 := by
  cases op with
  | mintBirthday caller uri now =>
    simp only [execOp] at h
    cases hm : mintBirthdaySong caller uri now s with
    | error e => rw [hm] at h; simp [Except.map] at h
    | ok p =>
      rw [hm] at h
      simp only [Except.map, Except.ok.injEq, Prod.mk.injEq, Option.some.injEq] at h
      obtain ⟨h1, h2⟩ := h
      obtain ⟨_, ht, hn, _⟩ :=
        mintBirthdaySong_ok_char (show mintBirthdaySong caller uri now s = Except.ok (p.1, p.2) by rw [hm])
      subst h1 h2
      exact ⟨ht, hn⟩
  | mintNatal caller uri now =>
    simp only [execOp] at h
    cases hm : mintNatalSong caller uri now s with
    | error e => rw [hm] at h; simp [Except.map] at h
    | ok p =>
      rw [hm] at h
      simp only [Except.map, Except.ok.injEq, Prod.mk.injEq, Option.some.injEq] at h
      obtain ⟨h1, h2⟩ := h
      obtain ⟨_, ht, hn, _⟩ :=
        mintNatalSong_ok_char (show mintNatalSong caller uri now s = Except.ok (p.1, p.2) by rw [hm])
      subst h1 h2
      exact ⟨ht, hn⟩
  | fulfill caller tokenId songUri =>
    simp only [execOp] at h
    cases hm : fulfillOrder caller tokenId songUri s <;> rw [hm] at h <;> simp [Except.map] at h
  | withdrawOp caller =>
    simp only [execOp] at h
    cases hm : withdraw caller s <;> rw [hm] at h <;> simp [Except.map] at h
  | setPricesOp caller bp np =>
    simp only [execOp] at h
    cases hm : setPrices caller bp np s <;> rw [hm] at h <;> simp [Except.map] at h
  | setPlatformWalletOp caller w =>
    simp only [execOp] at h
    cases hm : setPlatformWallet caller w s <;> rw [hm] at h <;> simp [Except.map] at h
  | transferTokenOp fromA toA tokenId =>
    simp only [execOp] at h
    cases hm : transferToken fromA toA tokenId s <;> rw [hm] at h <;> simp [Except.map] at h
  | approve a amount => simp only [execOp] at h; simp at h
  | fund a amount =>
    simp only [execOp] at h
    split at h
    · simp at h
    · simp at h

/-- An operation that returns no token id leaves the allocator unchanged. -/
theorem execOp_ok_none {op : Op} {s s' : ContractState}
    (h : execOp op s = Except.ok (s', none)) :
    s'.nextTokenId = s.nextTokenId := by
  cases op with
  | mintBirthday caller uri now =>
    simp only [execOp] at h
    cases hm : mintBirthdaySong caller uri now s <;> rw [hm] at h <;> simp [Except.map] at h
  | mintNatal caller uri now =>
    simp only [execOp] at h
    cases hm : mintNatalSong caller uri now s <;> rw [hm] at h <;> simp [Except.map] at h
  | fulfill caller tokenId songUri =>
    simp only [execOp] at h
    cases hm : fulfillOrder caller tokenId songUri s with
    | error e => rw [hm] at h; simp [Except.map] at h
    | ok s2 =>
      rw [hm] at h
      simp only [Except.map, Except.ok.injEq, Prod.mk.injEq] at h
      obtain ⟨h1, -⟩ := h
      subst h1
      exact (fulfillOrder_ok_char hm).2.2.2.2.1
  | withdrawOp caller =>
    simp only [execOp] at h
    cases hm : withdraw caller s with
    | error e => rw [hm] at h; simp [Except.map] at h
    | ok s2 =>
      rw [hm] at h
      simp only [Except.map, Except.ok.injEq, Prod.mk.injEq] at h
      obtain ⟨h1, -⟩ := h
      subst h1
      exact (withdraw_ok_frame hm).1
  | setPricesOp caller bp np =>
    simp only [execOp] at h
    cases hm : setPrices caller bp np s with
    | error e => rw [hm] at h; simp [Except.map] at h
    | ok s2 =>
      rw [hm] at h
      simp only [Except.map, Except.ok.injEq, Prod.mk.injEq] at h
      obtain ⟨h1, -⟩ := h
      subst h1
      exact (setPrices_ok_frame hm).1
  | setPlatformWalletOp caller w =>
    simp only [execOp] at h
    cases hm : setPlatformWallet caller w s with
    | error e => rw [hm] at h; simp [Except.map] at h
    | ok s2 =>
      rw [hm] at h
      simp only [Except.map, Except.ok.injEq, Prod.mk.injEq] at h
      obtain ⟨h1, -⟩ := h
      subst h1
      exact (setPlatformWallet_ok_frame hm).1
  | transferTokenOp fromA toA tokenId =>
    simp only [execOp] at h
    cases hm : transferToken fromA toA tokenId s with
    | error e => rw [hm] at h; simp [Except.map] at h
    | ok s2 =>
      rw [hm] at h
      simp only [Except.map, Except.ok.injEq, Prod.mk.injEq] at h
      obtain ⟨h1, -⟩ := h
      subst h1
      exact (transferToken_ok_frame hm).1
  | approve a amount =>
    simp only [execOp, Except.ok.injEq, Prod.mk.injEq] at h
    obtain ⟨h1, -⟩ := h
    subst h1
    rfl
  | fund a amount =>
    simp only [execOp] at h
    split at h
    · simp at h
    · simp only [Except.ok.injEq, Prod.mk.injEq] at h
      obtain ⟨h1, -⟩ := h
      subst h1
      rfl

/-- No operation ever resets a fulfilled flag: once an order is fulfilled it
stays fulfilled after any further transaction. -/
theorem fulfilled_mono {s : ContractState} (hs : Inv s) (op : Op) (t : Nat)
    (h : (s.orders t).fulfilled = true) :
    ((step s op).orders t).fulfilled = true := by
  obtain ⟨hb, hn, hw, hord, hown, hiff⟩ := hs
  have htlt : t < s.nextTokenId := by
    by_contra hge
    rw [hord t (by omega)] at h
    simp [defaultOrder] at h
  unfold step stepT
  cases hex : execOp op s with
  | error e => exact h
  | ok r =>
    obtain ⟨s', ret⟩ := r
    simp only
    cases op with
    | mintBirthday caller uri now =>
      simp only [execOp] at hex
      cases hm : mintBirthdaySong caller uri now s with
      | error e => rw [hm] at hex; simp [Except.map] at hex
      | ok p =>
        rw [hm] at hex
        simp only [Except.map, Except.ok.injEq, Prod.mk.injEq] at hex
        obtain ⟨hs', -⟩ := hex
        subst hs'
        obtain ⟨_, _, _, _, _, _, _, _, hother, _⟩ :=
          mintBirthdaySong_ok_char (show mintBirthdaySong caller uri now s = Except.ok (p.1, p.2) by rw [hm])
        rw [hother t (by omega)]
        exact h
    | mintNatal caller uri now =>
      simp only [execOp] at hex
      cases hm : mintNatalSong caller uri now s with
      | error e => rw [hm] at hex; simp [Except.map] at hex
      | ok p =>
        rw [hm] at hex
        simp only [Except.map, Except.ok.injEq, Prod.mk.injEq] at hex
        obtain ⟨hs', -⟩ := hex
        subst hs'
        obtain ⟨_, _, _, _, _, _, _, _, hother, _⟩ :=
          mintNatalSong_ok_char (show mintNatalSong caller uri now s = Except.ok (p.1, p.2) by rw [hm])
        rw [hother t (by omega)]
        exact h
    | fulfill caller tokenId songUri =>
      simp only [execOp] at hex
      cases hm : fulfillOrder caller tokenId songUri s with
      | error e => rw [hm] at hex; simp [Except.map] at hex
      | ok s2 =>
        rw [hm] at hex
        simp only [Except.map, Except.ok.injEq, Prod.mk.injEq] at hex
        obtain ⟨hs', -⟩ := hex
        subst hs'
        obtain ⟨_, _, _, _, _, _, _, _, _, _, hother, hat⟩ := fulfillOrder_ok_char hm
        by_cases ht : t = tokenId
        · subst ht; rw [hat]
        · rw [hother t ht]; exact h
    | withdrawOp caller =>
      simp only [execOp] at hex
      cases hm : withdraw caller s with
      | error e => rw [hm] at hex; simp [Except.map] at hex
      | ok s2 =>
        rw [hm] at hex
        simp only [Except.map, Except.ok.injEq, Prod.mk.injEq] at hex
        obtain ⟨hs', -⟩ := hex
        subst hs'
        rw [(withdraw_ok_frame hm).2.2.2.2.2.1]
        exact h
    | setPricesOp caller bp np =>
      simp only [execOp] at hex
      cases hm : setPrices caller bp np s with
      | error e => rw [hm] at hex; simp [Except.map] at hex
      | ok s2 =>
        rw [hm] at hex
        simp only [Except.map, Except.ok.injEq, Prod.mk.injEq] at hex
        obtain ⟨hs', -⟩ := hex
        subst hs'
        rw [(setPrices_ok_frame hm).2.2.2.2.1]
        exact h
    | setPlatformWalletOp caller w =>
      simp only [execOp] at hex
      cases hm : setPlatformWallet caller w s with
      | error e => rw [hm] at hex; simp [Except.map] at hex
      | ok s2 =>
        rw [hm] at hex
        simp only [Except.map, Except.ok.injEq, Prod.mk.injEq] at hex
        obtain ⟨hs', -⟩ := hex
        subst hs'
        rw [(setPlatformWallet_ok_frame hm).2.2.2.2.1]
        exact h
    | transferTokenOp fromA toA tokenId =>
      simp only [execOp] at hex
      cases hm : transferToken fromA toA tokenId s with
      | error e => rw [hm] at hex; simp [Except.map] at hex
      | ok s2 =>
        rw [hm] at hex
        simp only [Except.map, Except.ok.injEq, Prod.mk.injEq] at hex
        obtain ⟨hs', -⟩ := hex
        subst hs'
        rw [(transferToken_ok_frame hm).2.2.2.2.1]
        exact h
    | approve a amount =>
      simp only [execOp, Except.ok.injEq, Prod.mk.injEq] at hex
      obtain ⟨hs', -⟩ := hex
      subst hs'
      exact h
    | fund a amount =>
      simp only [execOp] at hex
      split at hex
      · simp at hex
      · simp only [Except.ok.injEq, Prod.mk.injEq] at hex
        obtain ⟨hs', -⟩ := hex
        subst hs'
        exact h

/-- The ids of the successful mints in a transaction sequence form the
contiguous range starting at the allocator value of the starting state. -/
theorem mintedIds_range (s : ContractState) (ops : List Op) :
    mintedIds s ops = List.range' s.nextTokenId (mintedIds s ops).length := by
  induction ops generalizing s with
  | nil => rfl
  | cons op ops ih =>
    have hdef : mintedIds s (op :: ops)
        = (stepT s op).2.toList ++ mintedIds (stepT s op).1 ops := rfl
    rw [hdef]
    cases hex : execOp op s with
    | error e =>
      have h1 : stepT s op = (s, none) := by unfold stepT; rw [hex]
      rw [h1]
      simpa using ih s
    | ok r =>
      obtain ⟨s', ret⟩ := r
      have h1 : stepT s op = (s', ret) := by unfold stepT; rw [hex]
      rw [h1]
      cases ret with
      | none =>
        have h2 := execOp_ok_none hex
        simpa [h2] using ih s'
      | some tid =>
        obtain ⟨h2, h3⟩ := execOp_ok_some hex
        have h4 := ih s'
        simp only [Option.toList, List.singleton_append, List.length_cons]
        rw [List.range'_succ]
        rw [h4, h3, h2]
        simp [List.length_range']

end BirthdaySongs

namespace BirthdaySongs

/-- C5: in every reachable contract state, an order is fulfilled exactly
when its song URI is non-empty; and no operation ever transitions a
fulfilled order back to unfulfilled. -/
theorem C5_fulfilled_iff_songUri (deployer platformW : Addr) (bal allow : Addr → Nat)
    (ops : List Op) :
    (∀ t, ((run (initState deployer platformW bal allow) ops).orders t).fulfilled = true
        ↔ ((run (initState deployer platformW bal allow) ops).orders t).songUri ≠ "")
    ∧ (∀ op t,
        ((run (initState deployer platformW bal allow) ops).orders t).fulfilled = true →
        ((step (run (initState deployer platformW bal allow) ops) op).orders t).fulfilled = true) := by
  have hinv := Inv_run (Inv_init deployer platformW bal allow) ops
  exact ⟨hinv.2.2.2.2.2, fun op t h => fulfilled_mono hinv op t h⟩

/-- Witness for C5: after a mint and its fulfillment, token 0 carries a
non-empty song URI, and a further transaction keeps it fulfilled. -/
theorem C5_fulfilled_iff_songUri_witness :
    ((run demoInit demoFulfilledOps).orders 0).songUri ≠ ""
    ∧ ((step (run demoInit demoFulfilledOps) (Op.withdrawOp "jose")).orders 0).fulfilled = true := by
  have h := C5_fulfilled_iff_songUri "jose" "platform" demoBal demoAllow demoFulfilledOps
  exact ⟨(h.1 0).mp (by decide), h.2 (Op.withdrawOp "jose") 0 (by decide)⟩

/-- C7: a mint call with an empty `orderDataUri` fails before any payment
transfer is attempted and, at the transaction level, leaves the entire
contract state — balances, supply counters, everything — unchanged. -/
theorem C7_empty_uri_mint_rejected (s : ContractState) (caller : Addr) (now : Nat) :
    (∃ e, mintBirthdaySong caller "" now s = Except.error e)
    ∧ step s (Op.mintBirthday caller "" now) = s
    ∧ (∃ e, mintNatalSong caller "" now s = Except.error e)
    ∧ step s (Op.mintNatal caller "" now) = s := by
  have hb : ∃ e, mintBirthdaySong caller "" now s = Except.error e := by
    unfold mintBirthdaySong mintOrder
    split
    · exact ⟨ContractError.OrderDataUriRequired, by simp⟩
    · exact ⟨ContractError.SoldOut, rfl⟩
  have hn : ∃ e, mintNatalSong caller "" now s = Except.error e := by
    unfold mintNatalSong mintOrder
    split
    · exact ⟨ContractError.OrderDataUriRequired, by simp⟩
    · exact ⟨ContractError.SoldOut, rfl⟩
  obtain ⟨eb, heb⟩ := hb
  obtain ⟨en, hen⟩ := hn
  refine ⟨⟨eb, heb⟩, ?_, ⟨en, hen⟩, ?_⟩
  · simp only [step, stepT, execOp, heb, Except.map]
  · simp only [step, stepT, execOp, hen, Except.map]

/-- C8: token identifiers are allocated strictly sequentially from 0 and
never reused: over any transaction sequence on a freshly deployed contract,
the ids handed out by the successful mints are exactly 0, 1, 2, … in
execution order; failed mints return no id and do not consume one. -/
theorem C8_token_ids_sequential (deployer platformW : Addr) (bal allow : Addr → Nat)
    (ops : List Op) :
    mintedIds (initState deployer platformW bal allow) ops
      = List.range (mintedIds (initState deployer platformW bal allow) ops).length := by
  rw [List.range_eq_range']
  exact mintedIds_range (initState deployer platformW bal allow) ops

end BirthdaySongs

namespace BirthdaySongs

/-- C3: on every reachable state the per-type minted counters never exceed
their caps; a mint of a type whose counter has reached its cap fails with
`SoldOut` and, the transaction reverting, leaves the state (in particular
the counter) unchanged; and every successful mint of a type increments
exactly that type's counter by 1. -/
theorem C3_supply_caps (deployer platformW : Addr) (bal allow : Addr → Nat)
    (ops : List Op) (s : ContractState)
    (hs : s = run (initState deployer platformW bal allow) ops) :
    (s.birthdaysMinted ≤ BIRTHDAY_SUPPLY_LIMIT ∧ s.natalsMinted ≤ NATAL_SUPPLY_LIMIT)
    ∧ (∀ caller uri now, s.birthdaysMinted = BIRTHDAY_SUPPLY_LIMIT →
        mintBirthdaySong caller uri now s = Except.error ContractError.SoldOut
        ∧ step s (Op.mintBirthday caller uri now) = s)
    ∧ (∀ caller uri now, s.natalsMinted = NATAL_SUPPLY_LIMIT →
        mintNatalSong caller uri now s = Except.error ContractError.SoldOut
        ∧ step s (Op.mintNatal caller uri now) = s)
    ∧ (∀ caller uri now s' tid, mintBirthdaySong caller uri now s = Except.ok (s', tid) →
        s'.birthdaysMinted = s.birthdaysMinted + 1 ∧ s'.natalsMinted = s.natalsMinted)
    ∧ (∀ caller uri now s' tid, mintNatalSong caller uri now s = Except.ok (s', tid) →
        s'.natalsMinted = s.natalsMinted + 1 ∧ s'.birthdaysMinted = s.birthdaysMinted) := by
  subst hs
  have hinv := Inv_run (Inv_init deployer platformW bal allow) ops
  refine ⟨⟨hinv.1, hinv.2.1⟩, ?_, ?_, ?_, ?_⟩
  · intro caller uri now hcap
    have hfail : mintBirthdaySong caller uri now
        (run (initState deployer platformW bal allow) ops) = Except.error ContractError.SoldOut := by
      unfold mintBirthdaySong
      rw [if_neg (by omega)]
    exact ⟨hfail, by simp only [step, stepT, execOp, hfail, Except.map]⟩
  · intro caller uri now hcap
    have hfail : mintNatalSong caller uri now
        (run (initState deployer platformW bal allow) ops) = Except.error ContractError.SoldOut := by
      unfold mintNatalSong
      rw [if_neg (by omega)]
    exact ⟨hfail, by simp only [step, stepT, execOp, hfail, Except.map]⟩
  · intro caller uri now s' tid hok
    have hc := mintBirthdaySong_ok_char hok
    exact ⟨hc.2.2.2.2.1, hc.2.2.2.2.2.1⟩
  · intro caller uri now s' tid hok
    have hc := mintNatalSong_ok_char hok
    exact ⟨hc.2.2.2.2.1, hc.2.2.2.2.2.1⟩

set_option maxRecDepth 100000 in
/-- Witness for C3: after 25 birthday mints the cap is reached, a further
birthday mint fails with `SoldOut`, and the very first mint raised the
counter from 0 to 1. -/
theorem C3_supply_caps_witness :
    mintBirthdaySong "bob" "uri" 7 (run demoInit demoCapOps) = Except.error ContractError.SoldOut
    ∧ (run demoInit demoCapOps).birthdaysMinted ≤ BIRTHDAY_SUPPLY_LIMIT
    ∧ (run demoInit [Op.mintBirthday "alice" "u" 0]).birthdaysMinted
        = demoInit.birthdaysMinted + 1 := by
  have h := C3_supply_caps "jose" "platform" demoBal demoAllow demoCapOps
    (run demoInit demoCapOps) rfl
  have h0 := C3_supply_caps "jose" "platform" demoBal demoAllow [] demoInit rfl
  refine ⟨(h.2.1 "bob" "uri" 7 (by decide)).1, h.1.1, ?_⟩
  cases hm : mintBirthdaySong "alice" "u" 0 demoInit with
  | error e =>
    have hok : (mintBirthdaySong "alice" "u" 0 demoInit).isOk = true := by decide
    rw [hm] at hok
    exact Bool.noConfusion hok
  | ok p =>
    have hstep : run demoInit [Op.mintBirthday "alice" "u" 0] = p.1 := by
      show step demoInit (Op.mintBirthday "alice" "u" 0) = p.1
      simp only [step, stepT, execOp, hm, Except.map]
    rw [hstep]
    exact (h0.2.2.2.1 "alice" "u" 0 p.1 p.2 (by rw [hm])).1

/-- C4: for an existing, unfulfilled token, a first `fulfillOrder` by the
contract owner with a non-empty song URI succeeds; a second `fulfillOrder`
on the same token fails with `AlreadyFulfilled` and, the transaction
reverting, leaves the whole contract state unchanged. -/
theorem C4_fulfill_twice (s : ContractState) (tokenId : Nat) (uri uri2 : String)
    (hex : s.owners tokenId ≠ none)
    (hnf : (s.orders tokenId).fulfilled = false)
    (hu : uri ≠ "") :
    (∃ s1, fulfillOrder s.contractOwner tokenId uri s = Except.ok s1
      ∧ step s (Op.fulfill s.contractOwner tokenId uri) = s1)
    ∧ fulfillOrder s.contractOwner tokenId uri2
        (step s (Op.fulfill s.contractOwner tokenId uri))
        = Except.error ContractError.AlreadyFulfilled
    ∧ step (step s (Op.fulfill s.contractOwner tokenId uri))
        (Op.fulfill s.contractOwner tokenId uri2)
        = step s (Op.fulfill s.contractOwner tokenId uri) := by
  have h1 : fulfillOrder s.contractOwner tokenId uri s = Except.ok
      { s with orders := fun t =>
          if t = tokenId then { s.orders tokenId with fulfilled := true, songUri := uri }
          else s.orders t } := by
    unfold fulfillOrder
    rw [if_neg (by simp), if_neg hex, if_neg (by simp [hnf]), if_neg hu]
  have hstep1 : step s (Op.fulfill s.contractOwner tokenId uri)
      = { s with orders := fun t =>
          if t = tokenId then { s.orders tokenId with fulfilled := true, songUri := uri }
          else s.orders t } := by
    simp only [step, stepT, execOp, h1, Except.map]
  have h2 : fulfillOrder s.contractOwner tokenId uri2
      { s with orders := fun t =>
          if t = tokenId then { s.orders tokenId with fulfilled := true, songUri := uri }
          else s.orders t } = Except.error ContractError.AlreadyFulfilled := by
    unfold fulfillOrder
    rw [if_neg (by simp), if_neg (by simpa using hex), if_pos (by simp)]
  refine ⟨⟨_, h1, hstep1⟩, ?_, ?_⟩
  · rw [hstep1]
    exact h2
  · rw [hstep1]
    simp only [step, stepT, execOp, h2, Except.map]

/-- Witness for C4 on a concrete state with one freshly minted token. -/
theorem C4_fulfill_twice_witness :
    fulfillOrder "jose" 0 "again" (run demoInit demoFulfilledOps)
      = Except.error ContractError.AlreadyFulfilled
    ∧ step (run demoInit demoFulfilledOps) (Op.fulfill "jose" 0 "again")
      = run demoInit demoFulfilledOps := by
  have h := C4_fulfill_twice (run demoInit [Op.mintBirthday "alice" "u" 0]) 0 "song" "again"
    (by decide) (by decide) (by decide)
  exact ⟨h.2.1, h.2.2⟩

end BirthdaySongs

namespace BirthdaySongs

theorem transferFromContract_usdcContract (r : Addr) (amt : Nat) (s : ContractState) :
    (transferFromContract r amt s).usdcContract = s.usdcContract - amt := rfl

theorem transferFromContract_usdcBalanceOf (r : Addr) (amt : Nat) (s : ContractState) (a : Addr) :
    (transferFromContract r amt s).usdcBalanceOf a
      = if a = r then s.usdcBalanceOf r + amt else s.usdcBalanceOf a := rfl

/-- A successful withdrawal credits `min (N * fee) balance` to the platform
wallet, the rest of the balance to the owner, and drains the contract. -/
theorem withdraw_pos_balances (s : ContractState)
    (hpw : s.platformWallet ≠ s.contractOwner)
    (hpos : 0 < s.usdcContract)
    (hwm : s.lastWithdrawnTokenId ≤ s.nextTokenId)
    {s' : ContractState}
    (h : withdraw s.contractOwner s = Except.ok s') :
    s'.usdcBalanceOf s.platformWallet
      = s.usdcBalanceOf s.platformWallet
        + min ((s.nextTokenId - s.lastWithdrawnTokenId) * PLATFORM_FEE) s.usdcContract
    ∧ s'.usdcBalanceOf s.contractOwner
      = s.usdcBalanceOf s.contractOwner
        + (s.usdcContract
            - min ((s.nextTokenId - s.lastWithdrawnTokenId) * PLATFORM_FEE) s.usdcContract)
    ∧ s'.usdcContract = 0 := by
  unfold withdraw at h
  rw [if_neg (by simp), if_neg (by omega), if_neg (by omega)] at h
  simp only [Except.ok.injEq] at h
  subst h
  set F := (s.nextTokenId - s.lastWithdrawnTokenId) * PLATFORM_FEE with hF
  by_cases hcap : F > s.usdcContract
  · refine ⟨?_, ?_, ?_⟩ <;>
      simp [hcap, hpos, Nat.sub_self, transferFromContract_usdcBalanceOf,
        transferFromContract_usdcContract, hpw, Ne.symm hpw] <;>
      omega
  · by_cases hf : 0 < F <;>
    by_cases hc : 0 < s.usdcContract - F <;>
      refine ⟨?_, ?_, ?_⟩ <;>
        simp [hcap, hf, hc, transferFromContract_usdcBalanceOf,
          transferFromContract_usdcContract, hpw, Ne.symm hpw] <;>
        omega

/-- C2: with N tokens minted since the watermark, fee F per order and
balance B, an owner withdrawal with B > 0 pays exactly N·F to the platform
wallet and B − N·F to the owner when B ≥ N·F, the entire balance B to the
platform wallet and nothing to the owner when B < N·F, in both cases
drains the contract and advances the watermark to the current mint count;
with B = 0 it fails with `NoFunds` (reverting, so the state is unchanged). -/
theorem C2_withdraw_split (s : ContractState)
    (hpw : s.platformWallet ≠ s.contractOwner)
    (hwm : s.lastWithdrawnTokenId ≤ s.nextTokenId) :
    (s.usdcContract = 0 → withdraw s.contractOwner s = Except.error ContractError.NoFunds)
    ∧ (0 < s.usdcContract →
        (∃ s1, withdraw s.contractOwner s = Except.ok s1)
        ∧ (step s (Op.withdrawOp s.contractOwner)).lastWithdrawnTokenId = s.nextTokenId
        ∧ (step s (Op.withdrawOp s.contractOwner)).usdcContract = 0
        ∧ ((s.nextTokenId - s.lastWithdrawnTokenId) * PLATFORM_FEE ≤ s.usdcContract →
            (step s (Op.withdrawOp s.contractOwner)).usdcBalanceOf s.platformWallet
              = s.usdcBalanceOf s.platformWallet
                + (s.nextTokenId - s.lastWithdrawnTokenId) * PLATFORM_FEE
            ∧ (step s (Op.withdrawOp s.contractOwner)).usdcBalanceOf s.contractOwner
              = s.usdcBalanceOf s.contractOwner
                + (s.usdcContract - (s.nextTokenId - s.lastWithdrawnTokenId) * PLATFORM_FEE))
        ∧ (s.usdcContract < (s.nextTokenId - s.lastWithdrawnTokenId) * PLATFORM_FEE →
            (step s (Op.withdrawOp s.contractOwner)).usdcBalanceOf s.platformWallet
              = s.usdcBalanceOf s.platformWallet + s.usdcContract
            ∧ (step s (Op.withdrawOp s.contractOwner)).usdcBalanceOf s.contractOwner
              = s.usdcBalanceOf s.contractOwner)) := by
  constructor
  · intro hz
    unfold withdraw
    rw [if_neg (by simp), if_pos hz]
  · intro hpos
    have hnz : ¬ s.usdcContract = 0 := by omega
    have hnu : ¬ s.nextTokenId < s.lastWithdrawnTokenId := by omega
    cases hw : withdraw s.contractOwner s with
    | error e =>
      unfold withdraw at hw
      rw [if_neg (by simp), if_neg hnz, if_neg hnu] at hw
      exact absurd hw (by simp)
    | ok s1 =>
      have hstep : step s (Op.withdrawOp s.contractOwner) = s1 := by
        simp only [step, stepT, execOp, hw, Except.map]
      have hfr := withdraw_ok_frame hw
      have hbal := withdraw_pos_balances s hpw hpos hwm hw
      rw [hstep]
      refine ⟨⟨s1, rfl⟩, hfr.2.2.2.1, hbal.2.2, ?_, ?_⟩
      · intro hle
        exact ⟨by rw [hbal.1]; omega, by rw [hbal.2.1]; omega⟩
      · intro hlt
        exact ⟨by rw [hbal.1]; omega, by rw [hbal.2.1]; omega⟩

set_option maxRecDepth 100000 in
/-- Witness for C2 on the state after one $25 birthday mint: one
unwithdrawn order, so the platform wallet receives $0.50 and the owner
$24.50, and the watermark advances to 1. -/
theorem C2_withdraw_split_witness :
    (step (run demoInit [Op.mintBirthday "alice" "u" 0]) (Op.withdrawOp "jose")).usdcBalanceOf
        "platform" = 500000
    ∧ (step (run demoInit [Op.mintBirthday "alice" "u" 0]) (Op.withdrawOp "jose")).usdcBalanceOf
        "jose" = 24500000
    ∧ (step (run demoInit [Op.mintBirthday "alice" "u" 0])
        (Op.withdrawOp "jose")).lastWithdrawnTokenId = 1 := by
  have h := C2_withdraw_split (run demoInit [Op.mintBirthday "alice" "u" 0])
    (by decide) (by decide)
  obtain ⟨-, hwm2, -, hle, -⟩ := h.2 (by decide)
  obtain ⟨hp, ho⟩ := hle (by decide)
  exact ⟨hp.trans (by decide), ho.trans (by decide), hwm2.trans (by decide)⟩

end BirthdaySongs

/-- C1: the song-retrieval endpoint must release a pointer only when the
authoritative contract order is fulfilled and the caller owns the token; at
this input the contract (two mints, nothing fulfilled) has token 1 owned by
"alice" and unfulfilled, a stale ledger row claims `fulfilled`, and the
handler — which consults only the ledger and ignores `userAddress` —
releases the pointer to the unrelated caller "bob". -/
theorem C1_access_gate_releases_unverified :
    ApiWorker.getSongHandler
        [{ id := "row1", token_id := 1, arweave_id := some "orderAR",
           song_arweave_id := some "songAR", status := "fulfilled",
           created_at := "t0", fulfilled_at := some "t1" }] 1 "bob"
      = ApiWorker.SongFetchResult.release "songAR"
    ∧ ((BirthdaySongs.run BirthdaySongs.demoInit
          [BirthdaySongs.Op.mintBirthday "alice" "u" 0,
           BirthdaySongs.Op.mintBirthday "alice" "u" 0]).orders 1).fulfilled = false
    ∧ (BirthdaySongs.run BirthdaySongs.demoInit
          [BirthdaySongs.Op.mintBirthday "alice" "u" 0,
           BirthdaySongs.Op.mintBirthday "alice" "u" 0]).owners 1 = some "alice"
    ∧ "bob" ≠ "alice" := by decide

/-- C6 counterexample: two accepted `recordCreated` calls for token 1 leave
two rows with `token_id = 1` in the ledger — the duplicate call is neither
a no-op nor a conflict, and both calls report success. -/
theorem C6_duplicate_insert_counterexample :
    ((ApiWorker.recordCreated
        (ApiWorker.recordCreated [] 1 "ar1" none "uuid-a" "t1").1
        1 "ar1" none "uuid-b" "t2").1.filter (fun r => r.token_id = 1)).length = 2
    ∧ (ApiWorker.recordCreated
        (ApiWorker.recordCreated [] 1 "ar1" none "uuid-a" "t1").1
        1 "ar1" none "uuid-b" "t2").2 = true := by decide

/-- C6 amended: `recordCreated` is a plain INSERT keyed by a fresh uuid
with no unique constraint on `token_id`: every accepted call (truthy
tokenId and arweaveId) appends exactly one row for that tokenId and reports
success, so a duplicate call for an already-recorded tokenId produces a
second row rather than a no-op or a conflict. -/
theorem C6_recordCreated_appends (db : ApiWorker.Db) (tokenId : Nat)
    (arweaveId : String) (status : Option String) (freshId now : String)
    (h0 : tokenId ≠ 0) (ha : arweaveId ≠ "") :
    ((ApiWorker.recordCreated db tokenId arweaveId status freshId now).1.filter
        (fun r => r.token_id = tokenId)).length
      = (db.filter (fun r => r.token_id = tokenId)).length + 1
    ∧ (ApiWorker.recordCreated db tokenId arweaveId status freshId now).2 = true := by
  unfold ApiWorker.recordCreated
  rw [if_neg (by simp [h0, ha])]
  simp

/-- Witness for C6 amended: a first insert into the empty ledger leaves one
row for token 1. -/
theorem C6_recordCreated_appends_witness :
    ((ApiWorker.recordCreated [] 1 "ar1" none "uuid-a" "t1").1.filter
        (fun r => r.token_id = 1)).length = 1
    ∧ (ApiWorker.recordCreated [] 1 "ar1" none "uuid-a" "t1").2 = true := by
  have h := C6_recordCreated_appends [] 1 "ar1" none "uuid-a" "t1" (by decide) (by decide)
  exact ⟨h.1, h.2⟩

/-- C9 counterexample: applying `recordFulfilled` twice with the same
tokenId and song id, at the successive clock readings "t1" then "t2", ends
in a ledger state different from a single application: `fulfilled_at`
holds "t2" instead of "t1". -/
theorem C9_refulfill_counterexample :
    (ApiWorker.recordFulfilled
        (ApiWorker.recordFulfilled
          [{ id := "row1", token_id := 1, arweave_id := some "ar",
             song_arweave_id := none, status := "pending",
             created_at := "t0", fulfilled_at := none }] 1 "song" "t1").1
        1 "song" "t2").1
      ≠ (ApiWorker.recordFulfilled
          [{ id := "row1", token_id := 1, arweave_id := some "ar",
             song_arweave_id := none, status := "pending",
             created_at := "t0", fulfilled_at := none }] 1 "song" "t1").1 := by decide

/-- C9 amended: `recordFulfilled` leaves the ledger untouched (while
reporting success) when no row matches the tokenId; and re-applying it is
last-write-wins: a second application at timestamp t2 produces exactly the
state of a single application at t2 — so applying twice differs from
applying once only in the `fulfilled_at` stamp, and re-applying with the
same timestamp is idempotent. -/
theorem C9_recordFulfilled_reapply (db : ApiWorker.Db) (tokenId : Nat)
    (songArweaveId : String) (t1 t2 : String) :
    ((∀ r ∈ db, r.token_id ≠ tokenId) →
      (ApiWorker.recordFulfilled db tokenId songArweaveId t1).1 = db)
    ∧ ApiWorker.recordFulfilled
        (ApiWorker.recordFulfilled db tokenId songArweaveId t1).1 tokenId songArweaveId t2
      = ApiWorker.recordFulfilled db tokenId songArweaveId t2 := by
  constructor
  · intro hnone
    unfold ApiWorker.recordFulfilled
    split
    · rfl
    · simp only
      have hmap : ∀ r ∈ db,
          (if r.token_id = tokenId then
            { r with song_arweave_id := some songArweaveId, status := "fulfilled",
                     fulfilled_at := some t1 }
          else r) = r := by
        intro r hr
        rw [if_neg (hnone r hr)]
      rw [List.map_congr_left hmap]
      simp
  · by_cases hv : tokenId = 0 ∨ songArweaveId = ""
    · simp [ApiWorker.recordFulfilled, hv]
    · simp only [ApiWorker.recordFulfilled, if_neg hv, List.map_map, Prod.mk.injEq, and_true]
      apply List.map_congr_left
      intro r hr
      by_cases hrt : r.token_id = tokenId
      · simp [Function.comp, hrt]
      · simp [Function.comp, hrt]

/-- Witness for C9 amended on a one-row ledger: a call for an absent token
is a no-op, and the double application collapses to the later single one. -/
theorem C9_recordFulfilled_reapply_witness :
    (ApiWorker.recordFulfilled
        [{ id := "rowX", token_id := 2, arweave_id := none, song_arweave_id := none,
           status := "pending", created_at := "t0", fulfilled_at := none }]
        1 "song" "t1").1
      = [{ id := "rowX", token_id := 2, arweave_id := none, song_arweave_id := none,
           status := "pending", created_at := "t0", fulfilled_at := none }]
    ∧ ApiWorker.recordFulfilled
        (ApiWorker.recordFulfilled
          [{ id := "row1", token_id := 1, arweave_id := some "ar",
             song_arweave_id := none, status := "pending",
             created_at := "t0", fulfilled_at := none }] 1 "song" "t1").1
        1 "song" "t2"
      = ApiWorker.recordFulfilled
          [{ id := "row1", token_id := 1, arweave_id := some "ar",
             song_arweave_id := none, status := "pending",
             created_at := "t0", fulfilled_at := none }] 1 "song" "t2" := by
  have h1 := C9_recordFulfilled_reapply
    [{ id := "rowX", token_id := 2, arweave_id := none, song_arweave_id := none,
       status := "pending", created_at := "t0", fulfilled_at := none }] 1 "song" "t1" "t2"
  have h2 := C9_recordFulfilled_reapply
    [{ id := "row1", token_id := 1, arweave_id := some "ar",
       song_arweave_id := none, status := "pending",
       created_at := "t0", fulfilled_at := none }] 1 "song" "t1" "t2"
  exact ⟨h1.1 (by decide), h2.2⟩

/-- C10 counterexample: with Web Crypto unavailable, `encrypt` falls back
to `btoa(data)`, and `btoa` throws on the plaintext "™" (code unit 0x2122
exceeds 0xFF) — so `encrypt` does not return for every plaintext: "never
throws" fails. -/
theorem C10_encrypt_throws_counterexample :
    Encryption.encrypt
      { available := false, aesEncrypt := fun _ _ => none, aesDecrypt := fun _ _ => none }
      "™" "pw" = none := by decide

/-- C10 amended: restricted to plaintexts whose code units all fit in a
byte — the only inputs `btoa` accepts — `encrypt` never throws: whenever
the Web Crypto path is unavailable or raises, it returns `btoa(data)` as an
ordinary success, indistinguishable in kind from a genuinely encrypted
payload (for other plaintexts the fallback `btoa` itself throws, as the
counterexample shows).  `decrypt` is total, and on an unavailable or
failing crypto path returns `atob(input)`, or the input unchanged when
`atob` fails. -/
theorem C10_encrypt_fallback (env : Encryption.CryptoOracle) (data password : String)
    (hlatin : data.toList.all (fun c => c.toNat ≤ 255) = true) :
    ((env.available = false ∨ env.aesEncrypt password data = none) →
      Encryption.encrypt env data password = Encryption.btoa data
      ∧ (Encryption.encrypt env data password).isSome = true)
    ∧ (∀ cipher, (env.available = false ∨ env.aesDecrypt password cipher = none) →
        Encryption.decrypt env cipher password
          = (Encryption.atob cipher).getD cipher) := by
  constructor
  · intro h
    have hsome : (Encryption.btoa data).isSome = true := by
      unfold Encryption.btoa
      rw [if_pos hlatin]
      rfl
    cases hav : env.available with
    | false =>
      have he : Encryption.encrypt env data password = Encryption.btoa data := by
        unfold Encryption.encrypt
        rw [if_pos hav]
      exact ⟨he, he ▸ hsome⟩
    | true =>
      have haes : env.aesEncrypt password data = none := by
        cases h with
        | inl h1 => rw [hav] at h1; exact absurd h1 (by simp)
        | inr h2 => exact h2
      have he : Encryption.encrypt env data password = Encryption.btoa data := by
        unfold Encryption.encrypt
        rw [if_neg (by rw [hav]; simp), haes]
      exact ⟨he, he ▸ hsome⟩
  · intro cipher h
    cases hav : env.available with
    | false =>
      unfold Encryption.decrypt
      rw [if_pos hav]
      cases Encryption.atob cipher <;> rfl
    | true =>
      have haes : env.aesDecrypt password cipher = none := by
        cases h with
        | inl h1 => rw [hav] at h1; exact absurd h1 (by simp)
        | inr h2 => exact h2
      unfold Encryption.decrypt
      rw [if_neg (by rw [hav]; simp)]
      cases hat : Encryption.atob cipher with
      | none => rfl
      | some s => rw [haes]; rfl

/-- Witness for C10 amended: the Latin-1 plaintext "hello" under an
unavailable crypto environment encrypts to `btoa "hello"` and is signalled
as a success; `decrypt` of a base64 input falls back to `atob`. -/
theorem C10_encrypt_fallback_witness :
    Encryption.encrypt
      { available := false, aesEncrypt := fun _ _ => none, aesDecrypt := fun _ _ => none }
      "hello" "pw" = Encryption.btoa "hello"
    ∧ (Encryption.encrypt
        { available := false, aesEncrypt := fun _ _ => none, aesDecrypt := fun _ _ => none }
        "hello" "pw").isSome = true
    ∧ Encryption.decrypt
        { available := false, aesEncrypt := fun _ _ => none, aesDecrypt := fun _ _ => none }
        "aGVsbG8=" "pw" = (Encryption.atob "aGVsbG8=").getD "aGVsbG8=" := by
  have h := C10_encrypt_fallback
    { available := false, aesEncrypt := fun _ _ => none, aesDecrypt := fun _ _ => none }
    "hello" "pw" (by decide)
  obtain ⟨h1, h2⟩ := h
  obtain ⟨ha, hb⟩ := h1 (Or.inl rfl)
  exact ⟨ha, hb, h2 "aGVsbG8=" (Or.inl rfl)⟩
